import Mathlib

/-!
Verification of the ECS example programs and of the ECS runtime design they
exercise (entity registry, component store, event bus, query engine, staged
scheduler).  The example systems of `examples/queries.rs` are embedded
directly from the source; the runtime components, whose code is not part of
this repository, are modelled from the design document.
-/

namespace QueriesEx

/-- Component `Name` from `examples/queries.rs`. -/
structure Name where
  name : String
deriving Repr, DecidableEq

/-- Component `Educated` from `examples/queries.rs`. -/
structure Educated where
  educated : Bool
deriving Repr, DecidableEq

/-- `const N_READERS: usize = 10;` from `examples/queries.rs`. -/
def N_READERS : Nat := 10

/-- An entity of the example world: an identifier `idx` assigned in spawn
order, an optional `Name` component, an optional `Educated` component, and a
list standing for the entity's components of every other type (`κ` ranges
over the payloads of all other component types). -/
structure REntity (κ : Type) where
  idx : Nat
  name : Option Name
  educated : Option Educated
  other : List κ
deriving Repr, DecidableEq

/-- A world is the list of live entities in ascending spawn (index) order. -/
abbrev World (κ : Type) := List (REntity κ)

/-- `spawn_readers` from `examples/queries.rs`: `for i in 1..N_READERS`
spawn an entity with `Name` built by joining `["Anonymous Reader", i]` with
a space and `Educated { educated: false }`.  `start` is the first free
entity index handed out by the registry. -/
def spawn_readers (κ : Type) (start : Nat) : World κ :=
  (List.range' 1 (N_READERS - 1)).map fun i =>
    { idx := start + (i - 1)
      name := some ⟨String.intercalate " " ["Anonymous Reader", toString i]⟩
      educated := some ⟨false⟩
      other := [] }

/-- The loop body of `educate`, applied to one entity: if the entity
carries an `Educated` component (i.e. it is matched by
`Query<&mut Educated>`), set `educated = true`; otherwise the query skips
it. -/
def educateEntity {κ : Type} (e : REntity κ) : REntity κ :=
  match e.educated with
  | some _ => { e with educated := some ⟨true⟩ }
  | none => e

/-- `educate` from `examples/queries.rs`: iterate the query
`Query<&mut Educated>` (all entities carrying `Educated`) and set
`educated = true` on each. -/
def educate {κ : Type} (w : World κ) : World κ :=
  w.map educateEntity

/-- `report_education` from `examples/queries.rs`: the tuples produced by
iterating `Query<(Entity, &Name, &Educated)>` — every entity carrying both
a `Name` and an `Educated` component, in ascending entity-index order. -/
def report_education {κ : Type} (w : World κ) : List (Nat × Name × Educated) :=
  (w.filter fun e => e.name.isSome && e.educated.isSome).filterMap fun e =>
    match e.name, e.educated with
    | some n, some ed => some (e.idx, n, ed)
    | _, _ => none

end QueriesEx

/-- Modelled from the spec: the error taxonomy of §7 — `StaleEntityError`
(operation on a despawned/never-existed entity), `MissingResourceError`
(access to an unregistered resource type), `ConflictError` (two systems in
one stage declare incompatible mutable access). -/
inductive EcsError where
  | staleEntityError
  | missingResourceError
  | conflictError
deriving Repr, DecidableEq

namespace RegistryM

/-- Entity identity per §3 of the design: `(index, generation)`. -/
structure Entity where
  index : Nat
  generation : Nat
deriving Repr, DecidableEq

/-- Modelled from the spec: the `EntityRegistry` of §4.1, whose code is not
in this repository.  `generations` stores the current generation per index,
`aliveFlags` whether the index is currently in use, `freeList` the recycled
indices available to `spawn`. -/
structure EntityRegistry where
  generations : List Nat
  aliveFlags : List Bool
  freeList : List Nat
deriving Repr, DecidableEq

/-- The registry before any entity was spawned. -/
def EntityRegistry.empty : EntityRegistry := ⟨[], [], []⟩

/-- Modelled from the spec: `spawn() -> Entity` (§4.1) — reuses a freed
index (whose generation counter was already incremented on destruction)
if available, else allocates a new index with generation 0. -/
def spawn (r : EntityRegistry) : Entity × EntityRegistry :=
  match r.freeList with
  | i :: rest =>
    (⟨i, r.generations.getD i 0⟩,
     { r with aliveFlags := r.aliveFlags.set i true, freeList := rest })
  | [] =>
    (⟨r.generations.length, 0⟩,
     { generations := r.generations ++ [0],
       aliveFlags := r.aliveFlags ++ [true],
       freeList := [] })

/-- Modelled from the spec: `is_alive(e) -> bool` (§4.1) — `e` is alive
when its index is currently in use and its generation matches the current
generation stored at that index. -/
def is_alive (r : EntityRegistry) (e : Entity) : Bool :=
  r.aliveFlags.getD e.index false && (r.generations.getD e.index 0 == e.generation)

/-- Modelled from the spec: `despawn(e)` (§4.1) — fails with
`StaleEntityError` if `e` is not alive (in particular when its generation
does not match the one stored at its index), leaving the registry
untouched; otherwise frees the index, increments its generation and
returns no error.  (Removal of `e`'s components lives in the
ComponentStore, outside this model's scope.) -/
def despawn (r : EntityRegistry) (e : Entity) : EntityRegistry × Option EcsError :=
  if is_alive r e then
    ({ generations := r.generations.set e.index (e.generation + 1),
       aliveFlags := r.aliveFlags.set e.index false,
       freeList := e.index :: r.freeList }, none)
  else
    (r, some .staleEntityError)

/-- Registry states reachable from the empty registry by any sequence of
`spawn` and `despawn` operations. -/
inductive Reachable : EntityRegistry → Prop where
  | empty : Reachable EntityRegistry.empty
  | spawnStep {r : EntityRegistry} : Reachable r → Reachable (spawn r).2
  | despawnStep {r : EntityRegistry} (e : Entity) :
      Reachable r → Reachable (despawn r e).1

end RegistryM

namespace EventBusM

/-- Modelled from the spec: the double-buffered `EventBus` of §4.4 for one
event type `ε`, its code not being in this repository.  Each sent event is
stamped with the id `nextId` held when it was sent, so that reader cursors
(`read`) can skip events they have already produced. -/
structure EventBus (ε : Type) where
  nextId : Nat
  current : List (Nat × ε)
  previous : List (Nat × ε)
deriving Repr, DecidableEq

/-- The bus with no events sent yet. -/
def EventBus.empty (ε : Type) : EventBus ε := ⟨0, [], []⟩

/-- Modelled from the spec: `send<T>(value)` (§4.4) — appends to the
current-frame buffer, stamped with a fresh id. -/
def send {ε : Type} (v : ε) (b : EventBus ε) : EventBus ε :=
  { nextId := b.nextId + 1
    current := b.current ++ [(b.nextId, v)]
    previous := b.previous }

/-- Modelled from the spec: `swap()` (§4.4) — called exactly once per tick
after the final stage: moves the current buffer into the previous slot and
discards whatever was previously there. -/
def swap {ε : Type} (b : EventBus ε) : EventBus ε :=
  { nextId := b.nextId, current := [], previous := b.current }

/-- Modelled from the spec: `read(reader_cursor)` (§4.4) — scans the
still-live previous+current buffers and produces the events created since
the cursor's last read (ids at or above the cursor), non-consuming;
returns the produced events and the advanced cursor. -/
def read {ε : Type} (c : Nat) (b : EventBus ε) : List (Nat × ε) × Nat :=
  ((b.previous ++ b.current).filter fun p => decide (c ≤ p.1), b.nextId)

/-- A burst of sends within one tick, in order. -/
def sends {ε : Type} (l : List ε) (b : EventBus ε) : EventBus ε :=
  l.foldl (fun b v => send v b) b

/-- One observable step of the bus: some system sends an event, or the
scheduler performs the end-of-tick `swap`. -/
inductive BusStep {ε : Type} : EventBus ε → EventBus ε → Prop where
  | sendStep (v : ε) (b : EventBus ε) : BusStep b (send v b)
  | swapStep (b : EventBus ε) : BusStep b (swap b)

/-- Any finite sequence of bus steps. -/
inductive Evolves {ε : Type} : EventBus ε → EventBus ε → Prop where
  | refl (b : EventBus ε) : Evolves b b
  | tail {a b c : EventBus ε} : Evolves a b → BusStep b c → Evolves a c

/-- Event id `n` occurs in neither buffer and can never be assigned again. -/
def Absent {ε : Type} (n : Nat) (b : EventBus ε) : Prop :=
  n < b.nextId ∧ ∀ p ∈ b.previous ++ b.current, n < p.1

end EventBusM

namespace QueryM

/-- A component (or marker) type, identified by a code: the query engine of
§4.5 filters on component-type membership only, never on payload. -/
abbrev CompType := Nat

/-- An entity as the query engine sees it: its index and the set (list) of
component types it currently carries. -/
structure QEntity where
  idx : Nat
  comps : List CompType
deriving Repr, DecidableEq

/-- Modelled from the spec: the filter semantics of §4.5 — an entity is
excluded if it lacks any required type, or if it carries any excluded
type. -/
def matchesQuery (req excl : List CompType) (e : QEntity) : Bool :=
  (req.all fun t => decide (t ∈ e.comps)) && (excl.all fun t => decide (t ∉ e.comps))

/-- Modelled from the spec: `iterate(handle)` (§4.5) over a world held in
ascending entity-index order — the matching entities, in world order. -/
def iterate (req excl : List CompType) (w : List QEntity) : List QEntity :=
  w.filter (matchesQuery req excl)

/-- Component-type code of the `Collides` marker of `adding_systems.rs`. -/
def collidesT : CompType := 0

/-- Component-type code of the `Slime` marker of `adding_systems.rs`. -/
def slimeT : CompType := 1

/-- Component-type code of the `Player1` marker of `adding_systems.rs`. -/
def player1T : CompType := 2

/-- Component-type code of the `Player2` marker of `adding_systems.rs`. -/
def player2T : CompType := 3

/-- Component-type code of the `Ball` marker of `adding_systems.rs`. -/
def ballT : CompType := 4

/-- Modelled from the spec: the world assembled by the startup systems of
`examples/adding_systems.rs`, whose bodies are descriptive comment stubs —
`create_arena` spawns the arena with `Collides`; `create_slime::<P>` spawns
one slime per player carrying `Collides`, `Slime` and that player's own
tag; `create_ball` spawns the ball with `Collides` and `Ball`. -/
def slimeWorld : List QEntity :=
  [⟨0, [collidesT]⟩,
   ⟨1, [collidesT, slimeT, player1T]⟩,
   ⟨2, [collidesT, slimeT, player2T]⟩,
   ⟨3, [collidesT, ballT]⟩]

end QueryM

namespace SchedM

/-- A system as the scheduler sees it (§3, §4.6): declared read and write
access sets (over component/resource type codes) and a run-to-completion
body transforming the world `ω`. -/
structure Sys (ω : Type) where
  reads : List Nat
  writes : List Nat
  body : ω → ω

/-- A stage: an ordered list of systems. -/
abbrev Stage (ω : Type) := List (Sys ω)

/-- Run all systems of one stage, in order, to completion. -/
def runSystems {ω : Type} (ss : List (Sys ω)) (w : ω) : ω :=
  ss.foldl (fun w s => s.body w) w

/-- Run the stages in their declared order, each stage completing before
the next begins (§4.6). -/
def runStages {ω : Type} (stages : List (Stage ω)) (w : ω) : ω :=
  stages.foldl (fun w st => runSystems st w) w

/-- Modelled from the spec: the static conflict check of §4.5 — do two
systems of this stage both declare write access to a common type? -/
def stageConflict {ω : Type} : Stage ω → Bool
  | [] => false
  | s :: rest =>
    (rest.any fun s2 => s.writes.any fun t => decide (t ∈ s2.writes)) || stageConflict rest

/-- Does any stage of the schedule contain a write-write conflict? -/
def hasConflict {ω : Type} (stages : List (Stage ω)) : Bool :=
  stages.any stageConflict

/-- Modelled from the spec: `run()` (§4.6 with the build-time check of
§4.5) — conflict detection aborts construction with `ConflictError` before
any system body is ever invoked; only a conflict-free schedule executes its
stages. -/
def run {ω : Type} (stages : List (Stage ω)) (w : ω) : Except EcsError ω :=
  if hasConflict stages then .error .conflictError else .ok (runStages stages w)

/-- Instrumented run of one stage: also records, for each system in order,
the world state handed to its body. -/
def traceSystems {ω : Type} : List (Sys ω) → ω → List ω × ω
  | [], w => ([], w)
  | s :: ss, w =>
    let p := traceSystems ss (s.body w)
    (w :: p.1, p.2)

/-- Instrumented run of a stage sequence: per stage, the list of world
states its systems observed. -/
def traceStages {ω : Type} : List (Stage ω) → ω → List (List ω) × ω
  | [], w => ([], w)
  | st :: rest, w =>
    let p := traceSystems st w
    let q := traceStages rest p.2
    (p.1 :: q.1, q.2)

end SchedM

/-!  Theorems.  -/

namespace QueriesEx

theorem educateEntity_idem {κ : Type} (e : REntity κ) :
    educateEntity (educateEntity e) = educateEntity e := by
  cases h : e.educated <;> simp [educateEntity, h]

theorem educateEntity_other_fields {κ : Type} (e : REntity κ) :
    (educateEntity e).idx = e.idx ∧ (educateEntity e).name = e.name ∧
      (educateEntity e).other = e.other := by
  cases h : e.educated <;> simp [educateEntity, h]

/-- C1: the scenario of `examples/queries.rs` — `spawn_readers` is run,
then one tick of `educate`, then the `(Entity, Name, Educated)` query of
`report_education`.  The code's loop `for i in 1..N_READERS` excludes the
upper bound, so only 9 readers are spawned and the query yields 9 tuples —
not the 10 the scenario announces — every one with `educated = true` and
names `Anonymous Reader 1` … `Anonymous Reader 9`, in ascending spawn
order. -/
theorem c1_scenario_yields_nine_tuples :
    report_education (educate (spawn_readers Unit 0)) =
      [(0, ⟨"Anonymous Reader 1"⟩, ⟨true⟩),
       (1, ⟨"Anonymous Reader 2"⟩, ⟨true⟩),
       (2, ⟨"Anonymous Reader 3"⟩, ⟨true⟩),
       (3, ⟨"Anonymous Reader 4"⟩, ⟨true⟩),
       (4, ⟨"Anonymous Reader 5"⟩, ⟨true⟩),
       (5, ⟨"Anonymous Reader 6"⟩, ⟨true⟩),
       (6, ⟨"Anonymous Reader 7"⟩, ⟨true⟩),
       (7, ⟨"Anonymous Reader 8"⟩, ⟨true⟩),
       (8, ⟨"Anonymous Reader 9"⟩, ⟨true⟩)] ∧
    (report_education (educate (spawn_readers Unit 0))).length = 9 ∧
    (report_education (educate (spawn_readers Unit 0))).length ≠ N_READERS := by
  refine ⟨by decide, by decide, by decide⟩

/-- C9: `educate` is idempotent — running it twice in succession leaves the
world identical to running it once. -/
theorem c9_educate_idempotent {κ : Type} (w : World κ) :
    educate (educate w) = educate w := by
  simp only [educate, List.map_map]
  exact List.map_congr_left fun e _ => educateEntity_idem e

/-- C10: `educate` modifies only `Educated` components — every entity
identifier, every `Name` value and every component of any other type
(the `other` field, ranging over arbitrary payloads `κ`) is unchanged, and
no entity is added, removed or reordered. -/
theorem c10_educate_frame {κ : Type} (w : World κ) :
    (educate w).map (fun e => (e.idx, e.name, e.other)) =
      w.map fun e => (e.idx, e.name, e.other) := by
  simp only [educate, List.map_map]
  refine List.map_congr_left fun e _ => ?_
  obtain ⟨h1, h2, h3⟩ := educateEntity_other_fields e
  simp [Function.comp, h1, h2, h3]

end QueriesEx

namespace RegistryM

theorem getD_set_self {α : Type} :
    ∀ (l : List α) (i : Nat) (a d : α), i < l.length → (l.set i a).getD i d = a
  | _ :: _, 0, _, _, _ => rfl
  | _ :: xs, i + 1, a, d, h => getD_set_self xs i a d (Nat.lt_of_succ_lt_succ h)

theorem getD_of_length_le {α : Type} :
    ∀ (l : List α) (i : Nat) (d : α), l.length ≤ i → l.getD i d = d
  | [], _, _, _ => rfl
  | _ :: _, 0, _, h => absurd h (by simp)
  | _ :: xs, i + 1, d, h => getD_of_length_le xs i d (Nat.le_of_succ_le_succ h)

theorem despawn_stale (r : EntityRegistry) (e : Entity) (h : is_alive r e = false) :
    despawn r e = (r, some EcsError.staleEntityError) := by
  simp [despawn, h]

/-- C2: for every alive entity `e`, `despawn e` succeeds; afterwards
`is_alive e` is false, and a second `despawn` of the same
(index, generation) identity fails with `StaleEntityError` while leaving
the registry state unchanged. -/
theorem c2_despawn_then_stale (r : EntityRegistry) (e : Entity)
    (h : is_alive r e = true) :
    (despawn r e).2 = none ∧
    is_alive (despawn r e).1 e = false ∧
    (despawn (despawn r e).1 e).2 = some EcsError.staleEntityError ∧
    (despawn (despawn r e).1 e).1 = (despawn r e).1 := by
  have hidx : e.index < r.aliveFlags.length := by
    by_contra hge
    push_neg at hge
    have hd := getD_of_length_le r.aliveFlags e.index false hge
    unfold is_alive at h
    rw [hd] at h
    simp at h
  have hdead : is_alive (despawn r e).1 e = false := by
    unfold despawn
    rw [if_pos h]
    unfold is_alive
    simp only
    rw [getD_set_self r.aliveFlags e.index false false hidx]
    simp
  have hsecond := despawn_stale (despawn r e).1 e hdead
  refine ⟨?_, hdead, ?_, ?_⟩
  · unfold despawn
    rw [if_pos h]
  · rw [hsecond]
  · rw [hsecond]

/-- Witness for C2 at a concrete registry: the state after one `spawn`
from the empty registry, despawning the entity it returned. -/
theorem c2_despawn_then_stale_witness :
    is_alive ⟨[0], [true], []⟩ ⟨0, 0⟩ = true ∧
    ((despawn ⟨[0], [true], []⟩ ⟨0, 0⟩).2 = none ∧
     is_alive (despawn ⟨[0], [true], []⟩ ⟨0, 0⟩).1 ⟨0, 0⟩ = false ∧
     (despawn (despawn ⟨[0], [true], []⟩ ⟨0, 0⟩).1 ⟨0, 0⟩).2 =
       some EcsError.staleEntityError ∧
     (despawn (despawn ⟨[0], [true], []⟩ ⟨0, 0⟩).1 ⟨0, 0⟩).1 =
       (despawn ⟨[0], [true], []⟩ ⟨0, 0⟩).1) :=
  ⟨by decide, c2_despawn_then_stale ⟨[0], [true], []⟩ ⟨0, 0⟩ (by decide)⟩

/-- C3: in every registry state reachable by any sequence of `spawn` and
`despawn` operations, two simultaneously alive entities sharing an index
share its generation — so after despawning an entity and respawning at its
recycled index, the old identity (same index, older generation) is dead. -/
theorem c3_generation_unique (r : EntityRegistry) (e₁ e₂ : Entity)
    (_hr : Reachable r)
    (h₁ : is_alive r e₁ = true) (h₂ : is_alive r e₂ = true)
    (hidx : e₁.index = e₂.index) :
    e₁.generation = e₂.generation := by
  unfold is_alive at h₁ h₂
  rw [Bool.and_eq_true] at h₁ h₂
  have g₁ := h₁.2
  have g₂ := h₂.2
  rw [beq_iff_eq] at g₁ g₂
  rw [hidx] at g₁
  rw [← g₁, ← g₂]

/-- Witness for C3 at a concrete reachable registry: one entity spawned
from the empty registry. -/
theorem c3_generation_unique_witness :
    Reachable ⟨[0], [true], []⟩ ∧
    is_alive ⟨[0], [true], []⟩ ⟨0, 0⟩ = true ∧
    Entity.index ⟨0, 0⟩ = Entity.index ⟨0, 0⟩ ∧
    Entity.generation ⟨0, 0⟩ = Entity.generation ⟨0, 0⟩ :=
  ⟨Reachable.spawnStep Reachable.empty, by decide, rfl,
   c3_generation_unique ⟨[0], [true], []⟩ ⟨0, 0⟩ ⟨0, 0⟩
     (Reachable.spawnStep Reachable.empty) (by decide) (by decide) rfl⟩

end RegistryM

namespace EventBusM

theorem sends_cons {ε : Type} (v : ε) (l : List ε) (b : EventBus ε) :
    sends (v :: l) b = sends l (send v b) := rfl

theorem sends_previous {ε : Type} :
    ∀ (l : List ε) (b : EventBus ε), (sends l b).previous = b.previous
  | [], _ => rfl
  | v :: l, b => by rw [sends_cons, sends_previous l (send v b)]; rfl

theorem sends_nextId_le {ε : Type} :
    ∀ (l : List ε) (b : EventBus ε), b.nextId ≤ (sends l b).nextId
  | [], _ => Nat.le_refl _
  | v :: l, b => by
    rw [sends_cons]
    exact Nat.le_trans (Nat.le_succ _) (sends_nextId_le l (send v b))

theorem mem_sends_current_of_mem {ε : Type} :
    ∀ (l : List ε) (b : EventBus ε) (p : Nat × ε),
      p ∈ b.current → p ∈ (sends l b).current
  | [], _, _, h => h
  | v :: l, b, p, h => by
    rw [sends_cons]
    exact mem_sends_current_of_mem l (send v b) p (List.mem_append_left _ h)

theorem mem_sends_current_cases {ε : Type} :
    ∀ (l : List ε) (b : EventBus ε) (p : Nat × ε),
      p ∈ (sends l b).current → p ∈ b.current ∨ b.nextId ≤ p.1
  | [], _, _, h => Or.inl h
  | v :: l, b, p, h => by
    rw [sends_cons] at h
    rcases mem_sends_current_cases l (send v b) p h with hmem | hle
    · rcases List.mem_append.mp hmem with hold | hnew
      · exact Or.inl hold
      · right
        rw [List.mem_singleton.mp hnew]
    · exact Or.inr (Nat.le_trans (Nat.le_succ _) hle)

theorem absent_of_step {ε : Type} {b b' : EventBus ε} {n : Nat}
    (hs : BusStep b b') (ha : Absent n b) : Absent n b' := by
  cases hs with
  | sendStep v b =>
    refine ⟨Nat.lt_succ_of_lt ha.1, fun p hp => ?_⟩
    rcases List.mem_append.mp hp with hprev | hcur
    · exact ha.2 p (List.mem_append_left _ hprev)
    · rcases List.mem_append.mp hcur with hold | hnew
      · exact ha.2 p (List.mem_append_right _ hold)
      · rw [List.mem_singleton.mp hnew]
        exact ha.1
  | swapStep b =>
    refine ⟨ha.1, fun p hp => ?_⟩
    rcases List.mem_append.mp hp with hprev | hcur
    · exact ha.2 p (List.mem_append_right _ hprev)
    · exact absurd hcur (List.not_mem_nil p)

theorem absent_of_evolves {ε : Type} {b b' : EventBus ε} {n : Nat}
    (hev : Evolves b b') (ha : Absent n b) : Absent n b' := by
  induction hev with
  | refl => exact ha
  | tail _ hs ih => exact absent_of_step hs ih

theorem not_mem_read_of_absent {ε : Type} {b : EventBus ε} {n : Nat}
    (ha : Absent n b) (c : Nat) (v : ε) : (n, v) ∉ (read c b).1 := by
  intro hmem
  have hbuf : (n, v) ∈ b.previous ++ b.current := (List.mem_filter.mp hmem).1
  exact absurd (ha.2 (n, v) hbuf) (Nat.lt_irrefl n)

/-- C4: the event time-box.  An event sent during tick `T` (followed by the
remaining sends `l₁` of that tick) is produced by `read` during tick `T`
and — after the end-of-tick `swap` and the sends `l₂` of tick `T+1` —
during tick `T+1`, for every reader cursor `c` that has not yet consumed
it; after the second `swap` (start of tick `T+2`) it is never produced
again, by any cursor, in any later bus state `b'` and whether or not it was
read earlier. -/
theorem c4_event_timebox {ε : Type} (b₀ : EventBus ε) (v : ε) (l₁ l₂ : List ε)
    (c cLater : Nat) (b' : EventBus ε)
    (hc : c ≤ b₀.nextId)
    (hev : Evolves (swap (sends l₂ (swap (sends l₁ (send v b₀))))) b') :
    (b₀.nextId, v) ∈ (read c (sends l₁ (send v b₀))).1 ∧
    (b₀.nextId, v) ∈ (read c (sends l₂ (swap (sends l₁ (send v b₀))))).1 ∧
    (b₀.nextId, v) ∉ (read cLater b').1 := by
  have hsent : (b₀.nextId, v) ∈ (send v b₀).current :=
    List.mem_append_right _ (List.mem_singleton.mpr rfl)
  have hcurT : (b₀.nextId, v) ∈ (sends l₁ (send v b₀)).current :=
    mem_sends_current_of_mem l₁ (send v b₀) _ hsent
  refine ⟨?_, ?_, ?_⟩
  · exact List.mem_filter.mpr ⟨List.mem_append_right _ hcurT, decide_eq_true hc⟩
  · have hprevT1 : (b₀.nextId, v) ∈ (sends l₂ (swap (sends l₁ (send v b₀)))).previous := by
      rw [sends_previous]
      exact hcurT
    exact List.mem_filter.mpr ⟨List.mem_append_left _ hprevT1, decide_eq_true hc⟩
  · have hfresh : b₀.nextId < (sends l₁ (send v b₀)).nextId :=
      Nat.lt_of_lt_of_le (Nat.lt_succ_self _) (sends_nextId_le l₁ (send v b₀))
    have habs : Absent b₀.nextId (swap (sends l₂ (swap (sends l₁ (send v b₀))))) := by
      constructor
      · exact Nat.lt_of_lt_of_le hfresh (sends_nextId_le l₂ (swap (sends l₁ (send v b₀))))
      · intro p hp
        rcases List.mem_append.mp hp with hprev | hcur
      
        · rcases mem_sends_current_cases l₂ (swap (sends l₁ (send v b₀))) p hprev with h0 | hle
          · exact absurd h0 (List.not_mem_nil p)
          · exact Nat.lt_of_lt_of_le hfresh hle
        · exact absurd hcur (List.not_mem_nil p)
    exact not_mem_read_of_absent (absent_of_evolves hev habs) cLater v

/-- Witness for C4 at a concrete run: the event `42` sent on tick `T` into
the empty bus, one more send each tick, read with a fresh cursor, and one
further send after the second swap. -/
theorem c4_event_timebox_witness :
    (0 : Nat) ≤ (EventBus.empty Nat).nextId ∧
    Evolves (swap (sends [7] (swap (sends [5] (send 42 (EventBus.empty Nat))))))
      (send 9 (swap (sends [7] (swap (sends [5] (send 42 (EventBus.empty Nat))))))) ∧
    (((EventBus.empty Nat).nextId, 42) ∈
        (read 0 (sends [5] (send 42 (EventBus.empty Nat)))).1 ∧
     ((EventBus.empty Nat).nextId, 42) ∈
        (read 0 (sends [7] (swap (sends [5] (send 42 (EventBus.empty Nat)))))).1 ∧
     ((EventBus.empty Nat).nextId, 42) ∉
        (read 3 (send 9 (swap (sends [7] (swap (sends [5]
          (send 42 (EventBus.empty Nat)))))))).1) :=
  ⟨by decide,
   Evolves.tail (Evolves.refl _) (BusStep.sendStep 9 _),
   c4_event_timebox (EventBus.empty Nat) 42 [5] [7] 0 3
     (send 9 (swap (sends [7] (swap (sends [5] (send 42 (EventBus.empty Nat)))))))
     (by decide)
     (Evolves.tail (Evolves.refl _) (BusStep.sendStep 9 _))⟩

end EventBusM

namespace QueryM

theorem iterate_mem {req excl : List CompType} {w : List QEntity} {e : QEntity} :
    e ∈ iterate req excl w ↔
      e ∈ w ∧ ((∀ t ∈ req, t ∈ e.comps) ∧ ∀ t ∈ excl, t ∉ e.comps) := by
  simp [iterate, List.mem_filter, matchesQuery, List.all_eq_true]

/-- C5: filter correctness.  For three entities carrying exactly the
component-type sets {A}, {A,B} and {B}, a query requiring `A` and
excluding `B` yields exactly the {A} entity; and in general an entity is
in a query's result iff it carries every required type and none of the
excluded types. -/
theorem c5_filter_correctness (A B : CompType) (i₁ i₂ i₃ : Nat)
    (req excl : List CompType) (w : List QEntity) (e : QEntity)
    (hAB : A ≠ B) :
    iterate [A] [B] [⟨i₁, [A]⟩, ⟨i₂, [A, B]⟩, ⟨i₃, [B]⟩] = [⟨i₁, [A]⟩] ∧
    (e ∈ iterate req excl w ↔
      e ∈ w ∧ ((∀ t ∈ req, t ∈ e.comps) ∧ ∀ t ∈ excl, t ∉ e.comps)) := by
  constructor
  · simp [iterate, matchesQuery, List.filter, hAB, Ne.symm hAB]
  · exact iterate_mem

/-- Witness for C5 at concrete component types `A = 0`, `B = 1` and the
three entities of the scenario. -/
theorem c5_filter_correctness_witness :
    (0 : CompType) ≠ 1 ∧
    (iterate [0] [1] [⟨10, [0]⟩, ⟨11, [0, 1]⟩, ⟨12, [1]⟩] = [⟨10, [0]⟩] ∧
     (⟨10, [0]⟩ ∈ iterate [0] [1] [⟨10, [0]⟩, ⟨11, [0, 1]⟩, ⟨12, [1]⟩] ↔
       ⟨10, [0]⟩ ∈ ([⟨10, [0]⟩, ⟨11, [0, 1]⟩, ⟨12, [1]⟩] : List QEntity) ∧
         ((∀ t ∈ ([0] : List CompType), t ∈ QEntity.comps ⟨10, [0]⟩) ∧
          ∀ t ∈ ([1] : List CompType), t ∉ QEntity.comps ⟨10, [0]⟩))) :=
  ⟨by decide,
   c5_filter_correctness 0 1 10 11 12 [0] [1]
     [⟨10, [0]⟩, ⟨11, [0, 1]⟩, ⟨12, [1]⟩] ⟨10, [0]⟩ (by decide)⟩

/-- C7: two instantiations of one generic system body, each bound to a
query requiring its own marker tag (plus the shared `Slime` marker), yield
disjoint results: provided no entity carries both tags — as in the world
the startup systems build, where each slime carries exactly one player
tag — no entity produced by the `p₁`-query is also produced by the
`p₂`-query. -/
theorem c7_generic_tags_disjoint (p₁ p₂ s : CompType) (w : List QEntity)
    (hw : (w.all fun e => !(decide (p₁ ∈ e.comps) && decide (p₂ ∈ e.comps))) = true) :
    ((iterate [s, p₁] [] w).all fun e => !(decide (e ∈ iterate [s, p₂] [] w))) = true := by
  rw [List.all_eq_true]
  intro e he
  rw [iterate_mem] at he
  obtain ⟨hew, hreq, -⟩ := he
  have hp₁ : p₁ ∈ e.comps := hreq p₁ (by simp)
  have hwe := List.all_eq_true.mp hw e hew
  simp only [Bool.not_eq_true', Bool.and_eq_false_iff, decide_eq_false_iff_not] at hwe
  have hnp₂ : p₂ ∉ e.comps := by
    cases hwe with
    | inl h => exact absurd hp₁ h
    | inr h => exact h
  simp only [Bool.not_eq_true', decide_eq_false_iff_not]
  rw [iterate_mem]
  rintro ⟨-, hreq₂, -⟩
  exact hnp₂ (hreq₂ p₂ (by simp))

/-- Witness for C7 at the world of `adding_systems.rs`: the two `controls`
queries, one per player tag, share no entity. -/
theorem c7_generic_tags_disjoint_witness :
    (slimeWorld.all fun e =>
      !(decide (player1T ∈ e.comps) && decide (player2T ∈ e.comps))) = true ∧
    ((iterate [slimeT, player1T] [] slimeWorld).all fun e =>
      !(decide (e ∈ iterate [slimeT, player2T] [] slimeWorld))) = true :=
  ⟨by decide, c7_generic_tags_disjoint player1T player2T slimeT slimeWorld (by decide)⟩

end QueryM

namespace SchedM

/-- C6: if two systems registered in the same stage both declare mutable
(write) access to the same component/resource type code `t`, then `run`
fails with `ConflictError`: the conflict check precedes all execution, so
no system body runs and no tick is produced. -/
theorem c6_conflict_error {ω : Type} (stages : List (Stage ω))
    (pre mid post : Stage ω) (s₁ s₂ : Sys ω) (t : Nat) (w : ω)
    (hst : (pre ++ s₁ :: mid ++ s₂ :: post) ∈ stages)
    (h₁ : t ∈ s₁.writes) (h₂ : t ∈ s₂.writes) :
    run stages w = Except.error EcsError.conflictError := by
  have hconf : stageConflict (pre ++ s₁ :: mid ++ s₂ :: post) = true := by
    clear hst
    induction pre with
    | nil =>
      simp only [List.nil_append, stageConflict, Bool.or_eq_true]
      left
      rw [List.any_eq_true]
      refine ⟨s₂, List.mem_append_right _ (List.mem_cons_self _ _), ?_⟩
      rw [List.any_eq_true]
      exact ⟨t, h₁, decide_eq_true h₂⟩
    | cons s pre ih =>
      simp only [List.cons_append, stageConflict, Bool.or_eq_true]
      right
      exact ih
  have hall : hasConflict stages = true := by
    rw [hasConflict, List.any_eq_true]
    exact ⟨_, hst, hconf⟩
  simp [run, hall]

/-- Witness for C6: one stage holding two systems that both write type 0 —
`run` aborts with `ConflictError`. -/
theorem c6_conflict_error_witness :
    ([] ++ Sys.mk ([] : List Nat) [0] (fun w : Nat => w + 1) ::
       [] ++ Sys.mk ([] : List Nat) [0] (fun w : Nat => w * 2) :: []) ∈
      [[Sys.mk ([] : List Nat) [0] (fun w : Nat => w + 1),
        Sys.mk ([] : List Nat) [0] (fun w : Nat => w * 2)]] ∧
    (0 : Nat) ∈ (Sys.mk ([] : List Nat) [0] (fun w : Nat => w + 1)).writes ∧
    (0 : Nat) ∈ (Sys.mk ([] : List Nat) [0] (fun w : Nat => w * 2)).writes ∧
    run [[Sys.mk ([] : List Nat) [0] (fun w : Nat => w + 1),
          Sys.mk ([] : List Nat) [0] (fun w : Nat => w * 2)]] (5 : Nat) =
      Except.error EcsError.conflictError :=
  ⟨List.mem_singleton.mpr rfl, by simp, by simp,
   c6_conflict_error
     [[Sys.mk [] [0] (fun w : Nat => w + 1), Sys.mk [] [0] (fun w : Nat => w * 2)]]
     [] [] [] (Sys.mk [] [0] (fun w : Nat => w + 1))
     (Sys.mk [] [0] (fun w : Nat => w * 2)) 0 5
     (List.mem_singleton.mpr rfl) (by simp) (by simp)⟩

theorem traceSystems_snd {ω : Type} :
    ∀ (ss : List (Sys ω)) (w : ω), (traceSystems ss w).2 = runSystems ss w
  | [], _ => rfl
  | s :: ss, w => by
    show (traceSystems ss (s.body w)).2 = runSystems (s :: ss) w
    rw [traceSystems_snd ss (s.body w)]
    rfl

theorem traceSystems_inputs {ω : Type} :
    ∀ (ss : List (Sys ω)) (w d : ω) (k : Nat), k < ss.length →
      (traceSystems ss w).1.getD k d = runSystems (ss.take k) w
  | [], _, _, _, h => absurd h (by simp)
  | _ :: _, _, _, 0, _ => rfl
  | s :: ss, w, d, k + 1, h => by
    show (traceSystems ss (s.body w)).1.getD k d = runSystems ((s :: ss).take (k + 1)) w
    rw [traceSystems_inputs ss (s.body w) d k (Nat.lt_of_succ_lt_succ h)]
    rfl

/-- C8: stage ordering.  In a tick whose stage sequence starts with the
UPDATE stage followed by the POST_UPDATE stage, the world state handed to
the `k`-th POST_UPDATE system is the result of running the entire UPDATE
stage (followed by the earlier POST_UPDATE systems): every mutation
committed by any UPDATE system of the tick is already applied — a later
stage never begins until all systems of the earlier stage completed. -/
theorem c8_stage_ordering {ω : Type} (updateStage postStage : Stage ω)
    (rest : List (Stage ω)) (w d : ω) (k : Nat) (hk : k < postStage.length) :
    ((traceStages (updateStage :: postStage :: rest) w).1.getD 1 []).getD k d =
      runSystems (postStage.take k) (runSystems updateStage w) := by
  show ((traceSystems postStage (traceSystems updateStage w).2).1).getD k d = _
  rw [traceSystems_snd]
  exact traceSystems_inputs postStage (runSystems updateStage w) d k hk

/-- Witness for C8: one UPDATE system (`+1`) and one POST_UPDATE system
(`*2`) over a `Nat` world — the POST_UPDATE system observes world `1`,
i.e. the committed UPDATE mutation. -/
theorem c8_stage_ordering_witness :
    (0 : Nat) < ([Sys.mk ([] : List Nat) [] (fun w : Nat => w * 2)] : Stage Nat).length ∧
    ((traceStages [[Sys.mk ([] : List Nat) [] (fun w : Nat => w + 1)],
                   [Sys.mk ([] : List Nat) [] (fun w : Nat => w * 2)]] 0).1.getD 1 []).getD 0 99 =
      runSystems (([Sys.mk ([] : List Nat) [] (fun w : Nat => w * 2)]).take 0)
        (runSystems [Sys.mk ([] : List Nat) [] (fun w : Nat => w + 1)] 0) :=
  ⟨by simp,
   c8_stage_ordering [Sys.mk [] [] (fun w : Nat => w + 1)]
     [Sys.mk [] [] (fun w : Nat => w * 2)] [] 0 99 0 (by simp)⟩

end SchedM
